import Mathlib

/-!
# Verification of the `simple_sync` reconciliation core

A shallow embedding, in Lean 4, of the parts of the `simple_sync` Python
repository that the checked specification claims talk about:

* the path/entry data model (`simple_sync/types.py`),
* the planner (`simple_sync/engine/planner.py`),
* the state store (`simple_sync/engine/state_store.py`),
* the text merger (`simple_sync/engine/merge.py`),
* the executor's transport-result handling and merge driver
  (`simple_sync/engine/executor.py`),
* the sync coordinator's post-plan control flow (`simple_sync/cli.py`).

Python strings are embedded as `String` (characters are code points, as in
Python), Python `float` values that the code only ever compares or truncates
(mtimes, wall-clock values) as `ℚ`, Python `int` as `ℤ`/`ℕ`, Python `dict`s
as association lists in insertion order, and fallible code as `Except`.
Wall-clock reads (`time.time()`) are passed in as an explicit `now` argument.
-/

namespace SimpleSync

/-! ## Python string helpers -/

/-- Python `int(x)` on a non-negative or negative rational: truncation toward
zero (`int()` truncates the fractional part, it does not floor). -/
def pyInt (q : ℚ) : ℤ :=
  if q.num < 0 then -(Int.ofNat (q.num.natAbs / q.den)) else Int.ofNat (q.num.natAbs / q.den)

/-- `startsWithChars hay needle`: does `hay` start with `needle`? -/
def startsWithChars : List Char → List Char → Bool
  | _, [] => true
  | [], _ :: _ => false
  | c :: cs, d :: ds => c = d && startsWithChars cs ds

/-- `containsChars hay needle`: does `needle` occur contiguously in `hay`?
Embeds the Python `in` operator on strings. -/
def containsChars : List Char → List Char → Bool
  | [], needle => startsWithChars [] needle
  | c :: cs, needle => startsWithChars (c :: cs) needle || containsChars cs needle

/-- Python `str.lower()` restricted to what the source feeds it (ASCII
markers); embedded as per-character lowering. -/
def pyLower (s : String) : String :=
  String.mk (s.toList.map Char.toLower)

/-- Python `needle in hay` on strings. -/
def pyContains (hay needle : String) : Bool :=
  containsChars hay.toList needle.toList

/-- Python `str.strip()`: drop whitespace from both ends.  Embedded with
Lean's `String.trim`, which strips the same ASCII whitespace the source's
inputs contain. -/
def pyStrip (s : String) : String := s.trim

/-! ## Path normalization (`simple_sync/types.py`, `normalize_relative_path`) -/

/-- `str(path).replace("\\\\", "/")`: map each backslash to a forward
slash. -/
def slashMap (cs : List Char) : List Char :=
  cs.map fun c => if c = '\\' then '/' else c

/-- The drive-letter test `re.match(r"^[A-Za-z]:", s)` from
`normalize_relative_path`. -/
def driveLetterChars : List Char → Bool
  | c :: d :: _ => c.isAlpha && d = ':'
  | _ => false

/-- Split a character list on `'/'`, keeping empty segments (the raw split
that `PurePosixPath` parsing performs before discarding `""` and `"."`
components). -/
def splitSlash : List Char → List (List Char)
  | [] => [[]]
  | c :: rest =>
    if c = '/' then [] :: splitSlash rest
    else
      match splitSlash rest with
      | [] => [[c]]
      | p :: ps => (c :: p) :: ps

/-- Join segments with `'/'` (the final `"/".join(parts)`). -/
def joinSlash : List (List Char) → List Char
  | [] => []
  | [p] => p
  | p :: q :: ps => p ++ '/' :: joinSlash (q :: ps)

/-- A path segment is kept when it is neither empty nor `"."`; this is both
what `PurePosixPath.parts` discards and what the source's loop re-checks. -/
def keepSegment (p : List Char) : Bool :=
  !(p.isEmpty || p = ['.'])

/-- Embeds `simple_sync.types.normalize_relative_path`:
backslashes are mapped to forward slashes, a drive-letter prefix or an
absolute path raises `ValueError`, `PurePosixPath.parts` drops empty and
`"."` segments, a `".."` segment raises, and the remaining segments are
joined with `"/"` (or `"."` when none remain). -/
def normalize_relative_path (s : String) : Except String String :=
  let cs := slashMap s.toList
  if driveLetterChars cs then
    .error ("Absolute paths are not allowed: " ++ s)
  else if cs.head? = some '/' then
    .error ("Absolute paths are not allowed: " ++ s)
  else
    let parts := (splitSlash cs).filter keepSegment
    if parts.any (fun p => p = ['.', '.']) then
      .error ("Path escapes root: " ++ s)
    else
      .ok (if parts.isEmpty then "." else String.mk (joinSlash parts))

/-- Whether `normalize_relative_path` accepts the input (returns instead of
raising `ValueError`). -/
def normalizeAccepts (s : String) : Bool :=
  match normalize_relative_path s with
  | .ok _ => true
  | .error _ => false

/-! ## Data model (`simple_sync/types.py`) -/

inductive EndpointType where
  | local
  | ssh
  deriving DecidableEq, Repr

/-- `types.Endpoint` (the frozen dataclass; `path` is kept as the string the
run resolved). -/
structure Endpoint where
  id : String
  type : EndpointType
  path : String
  host : Option String := none
  description : Option String := none
  ssh_command : Option String := none
  pre_connect_command : Option String := none
  deriving DecidableEq, Repr

/-- `types.FileEntry`. `mtime` is a float epoch second, embedded as `ℚ`. -/
structure FileEntry where
  path : String
  is_dir : Bool
  size : ℤ
  mtime : ℚ
  is_symlink : Bool := false
  link_target : Option String := none
  hash : Option String := none
  deriving DecidableEq, Repr

inductive OperationType where
  | copy
  | delete
  | mkdir
  | merge
  deriving DecidableEq, Repr

/-- The metadata dictionaries the planner and state store attach to
operations and conflicts, embedded structurally: each field is one key the
source ever writes (`None` ↔ key absent). -/
structure Metadata where
  reason : Option String := none
  target_suffix : Option String := none
  fallback_policy : Option String := none
  fallback_prefer : Option String := none
  fallback_manual_behavior : Option String := none
  resolution : Option String := none
  timestamp : Option ℕ := none
  a : Option FileEntry := none
  b : Option FileEntry := none
  deriving DecidableEq, Repr

/-- `types.Operation` (`__post_init__` normalizes `path`; construction goes
through `mkOperation` below). -/
structure Operation where
  type : OperationType
  path : String
  source : Option Endpoint := none
  destination : Option Endpoint := none
  metadata : Metadata := {}
  deriving DecidableEq, Repr

/-- `types.Conflict` (`__post_init__` normalizes `path`). -/
structure Conflict where
  path : String
  endpoints : Endpoint × Endpoint
  reason : String
  metadata : Metadata := {}
  deriving DecidableEq, Repr

/-- Construction of a `types.Operation`: `__post_init__` pushes the path
through `normalize_relative_path`, which may raise. -/
def mkOperation (ty : OperationType) (path : String) (source destination : Option Endpoint)
    (metadata : Metadata) : Except String Operation :=
  (normalize_relative_path path).map fun p =>
    { type := ty, path := p, source := source, destination := destination, metadata := metadata }

/-- Construction of a `types.Conflict` (path normalized as well). -/
def mkConflict (path : String) (endpoints : Endpoint × Endpoint) (reason : String)
    (metadata : Metadata) : Except String Conflict :=
  (normalize_relative_path path).map fun p =>
    { path := p, endpoints := endpoints, reason := reason, metadata := metadata }

/-! ## State store (`simple_sync/engine/state_store.py`) -/

/-- `state_store.StoredEntry`. -/
structure StoredEntry where
  path : String
  is_dir : Bool
  size : ℤ
  mtime : ℚ
  is_symlink : Bool := false
  link_target : Option String := none
  hash : Option String := none
  deriving DecidableEq, Repr

/-- `state_store.ConflictRecord` (`timestamp` is a float epoch value). -/
structure ConflictRecord where
  path : String
  reason : String
  endpoints : String × String
  timestamp : ℚ
  resolution : Option String := none
  metadata : Metadata := {}
  deriving DecidableEq, Repr

/-- `state_store.ProfileState`.  The two nested `dict`s are embedded as
association lists in insertion order. -/
structure ProfileState where
  profile : String
  endpoints : List (String × List (String × StoredEntry)) := []
  conflicts : List ConflictRecord := []
  deriving DecidableEq, Repr

/-- Update an association list at a key, replacing in place when the key is
present and appending when absent — Python `dict` assignment order. -/
def updateAssoc {α : Type} (l : List (String × α)) (k : String) (f : Option α → α) :
    List (String × α) :=
  match l with
  | [] => [(k, f none)]
  | (k', v) :: rest =>
    if k' = k then (k', f (some v)) :: rest else (k', v) :: updateAssoc rest k f

/-- `state_store.record_entry`: `state.endpoints.setdefault(eid, {})[path] = StoredEntry(...)`. -/
def record_entry (state : ProfileState) (endpoint_id : String) (entry : FileEntry) :
    ProfileState :=
  let stored : StoredEntry :=
    { path := entry.path, is_dir := entry.is_dir, size := entry.size, mtime := entry.mtime
      is_symlink := entry.is_symlink, link_target := entry.link_target, hash := entry.hash }
  { state with
    endpoints := updateAssoc state.endpoints endpoint_id fun entries =>
      updateAssoc (entries.getD []) entry.path (fun _ => stored) }

/-- `state_store.record_conflict`: appends a `ConflictRecord`; the stored
timestamp is the given one unless it is falsy (`None` or `0`), in which case
the wall clock `now` is read (`timestamp or time.time()`). -/
def record_conflict (state : ProfileState) (path : String) (reason : String)
    (endpoints : String × String) (resolution : Option String) (timestamp : Option ℕ)
    (metadata : Metadata) (now : ℚ) : ProfileState :=
  let ts : ℚ :=
    match timestamp with
    | some t => if t = 0 then now else (t : ℚ)
    | none => now
  { state with
    conflicts := state.conflicts ++
      [{ path := path, reason := reason, endpoints := endpoints, timestamp := ts
         resolution := resolution, metadata := metadata }] }

/-- `state_store.get_last_entry`: normalizes the path (which may raise) and
looks it up in the endpoint's map. -/
def get_last_entry (state : ProfileState) (endpoint_id : String) (rel_path : String) :
    Except String (Option StoredEntry) :=
  (normalize_relative_path rel_path).map fun normalized =>
    ((state.endpoints.lookup endpoint_id).getD []).lookup normalized

/-! ## Text-file classification (`simple_sync/engine/merge.py`) -/

/-- The curated extension set of `merge.is_text_file`. -/
def textExtensions : List String :=
  [".md", ".py", ".js", ".ts", ".jsx", ".tsx", ".java", ".c", ".cpp", ".h", ".hpp",
   ".cs", ".rb", ".go", ".rs", ".php", ".html", ".css", ".scss", ".sass", ".less",
   ".xml", ".json", ".yaml", ".yml", ".toml", ".ini", ".cfg", ".conf", ".sh", ".bash",
   ".zsh", ".fish", ".sql", ".r", ".R", ".m", ".swift", ".kt", ".scala", ".clj",
   ".hs", ".ml", ".ex", ".exs", ".erl", ".pl", ".pm", ".lua", ".vim", ".el",
   ".tex", ".rst", ".adoc", ".org", ".cmake", ".gradle", ".properties", ".env",
   ".gitignore", ".dockerignore", ".editorconfig", ".eslintrc", ".prettierrc"]

/-- Index of the last `'.'` in a name (accumulator-passing scan). -/
def lastDotAt : List Char → ℕ → Option ℕ → Option ℕ
  | [], _, best => best
  | c :: cs, i, best => lastDotAt cs (i + 1) (if c = '.' then some i else best)

/-- `PurePath(path).suffix`: the extension of the final component — the slice
from its last dot, unless that dot is the leading character of the name. -/
def pathSuffix (path : String) : String :=
  let name := (splitSlash path.toList).getLastD []
  match lastDotAt name 0 none with
  | some i => if i = 0 then "" else String.mk (name.drop i)
  | none => ""

/-- Modelled from the Python standard library `mimetypes` table consulted by
`merge.is_text_file` as a fallback: the common registered suffixes whose
guessed type starts with `text/`.  (The source's own extension set already
covers most of them; only the suffixes below additionally guess `text/*`.) -/
def mimeTextSuffixes : List String :=
  [".txt", ".csv", ".tsv", ".rtf", ".bat", ".etx", ".ksh", ".srt", ".vtt"]

/-- `merge.is_text_file`: `.txt` is deliberately excluded, then the curated
extension set, then the MIME guess. -/
def is_text_file (path : String) : Bool :=
  let suffix := pyLower (pathSuffix path)
  if suffix = ".txt" then false
  else if textExtensions.contains suffix then true
  else mimeTextSuffixes.contains suffix

/-- UTF-8 encoding of one character (scalar values only, which is all a Lean
`Char` can hold — matching `str.encode("utf-8", errors="ignore")`). -/
def utf8Char (c : Char) : List ℕ :=
  let n := c.toNat
  if n < 0x80 then [n]
  else if n < 0x800 then [0xC0 + n / 0x40, 0x80 + n % 0x40]
  else if n < 0x10000 then
    [0xE0 + n / 0x1000, 0x80 + n / 0x40 % 0x40, 0x80 + n % 0x40]
  else
    [0xF0 + n / 0x40000, 0x80 + n / 0x1000 % 0x40, 0x80 + n / 0x40 % 0x40, 0x80 + n % 0x40]

/-- `content.encode("utf-8")` as a byte list. -/
def utf8Bytes (s : String) : List ℕ :=
  s.toList.flatMap utf8Char

/-- `merge.is_binary_content`: a null byte within the first 8 KiB. -/
def is_binary_content (bytes : List ℕ) : Bool :=
  (bytes.take 8192).contains 0

/-! ## Planner (`simple_sync/engine/planner.py`) -/

/-- `planner.PlannerInput` (snapshots are path-keyed dicts, embedded as
association lists). -/
structure PlannerInput where
  profile : String
  snapshot_a : List (String × FileEntry)
  snapshot_b : List (String × FileEntry)
  endpoint_a : Endpoint
  endpoint_b : Endpoint
  state : ProfileState
  policy : String := "newest"
  prefer_endpoint : Option String := none
  manual_behavior : Option String := none
  merge_text_files : Bool := true
  merge_fallback : String := "newest"
  deriving DecidableEq, Repr

/-- `planner.PlannerOutput`. -/
structure PlannerOutput where
  operations : List Operation := []
  conflicts : List Conflict := []
  deriving DecidableEq, Repr

/-- `planner._entries_equal`: same `is_dir`, same `size`, same truncated
mtime. -/
def entries_equal (a b : FileEntry) : Bool :=
  a.is_dir = b.is_dir && a.size = b.size && pyInt a.mtime = pyInt b.mtime

/-- `planner._changed_since_last`. -/
def changed_since_last (entry : FileEntry) (last : Option StoredEntry) : Bool :=
  match last with
  | none => true
  | some l =>
    !(entry.is_dir = l.is_dir) || !(entry.size = l.size) || !(pyInt entry.mtime = pyInt l.mtime)

/-- `planner._choose_newest`: A wins ties (`entry_a.mtime >= entry_b.mtime`). -/
def choose_newest (entry_a entry_b : FileEntry) (endpoint_a endpoint_b : Endpoint) :
    Endpoint × Endpoint :=
  if entry_a.mtime ≥ entry_b.mtime then (endpoint_a, endpoint_b) else (endpoint_b, endpoint_a)

/-- `planner._choose_preferred`: falls back to `(A, B)` when neither id
matches. -/
def choose_preferred (prefer_endpoint : String) (endpoint_a endpoint_b : Endpoint) :
    Endpoint × Endpoint :=
  if endpoint_a.id = prefer_endpoint then (endpoint_a, endpoint_b)
  else if endpoint_b.id = prefer_endpoint then (endpoint_b, endpoint_a)
  else (endpoint_a, endpoint_b)

/-- Python truthiness of an optional string (`None` and `""` are falsy). -/
def truthyStr : Option String → Bool
  | some s => !s.isEmpty
  | none => false

/-- `planner._copy_both_operations`.  `timestamp or int(time.time())` keeps
the passed timestamp unless it is falsy (`None` or `0`); the wall clock is
the explicit `now`. -/
def copy_both_operations (path : String) (endpoint_a endpoint_b : Endpoint)
    (entry_a entry_b : FileEntry) (timestamp : Option ℕ) (now : ℕ) :
    Except String (List Operation) := do
  let ts : ℕ :=
    match timestamp with
    | some t => if t = 0 then now else t
    | none => now
  let suffix_a := path ++ ".conflict-" ++ endpoint_a.id ++ "-" ++ toString ts
  let suffix_b := path ++ ".conflict-" ++ endpoint_b.id ++ "-" ++ toString ts
  let op1 ← mkOperation .copy path (some endpoint_a) (some endpoint_b)
    { reason := some "manual_copy_both_copy", target_suffix := some suffix_a }
  let op2 ← mkOperation .copy path (some endpoint_b) (some endpoint_a)
    { reason := some "manual_copy_both_copy", target_suffix := some suffix_b }
  pure [op1, op2]

/-- The `should_merge` condition computed inside `planner._classify_path`. -/
def should_merge (merge_text_files : Bool) (entry_a entry_b : FileEntry) (path : String)
    (last_a last_b : Option StoredEntry) : Bool :=
  merge_text_files && !entry_a.is_dir && !entry_b.is_dir && is_text_file path &&
    last_a.isSome && last_b.isSome

/-- `planner._classify_path`.  The Python version appends to the output; here
the operations and conflicts emitted for this one path are returned (the
caller concatenates in path order).  Dataclass instances are always truthy,
so `if entry_a and not entry_b` tests presence.  `int(time.time())` is the
explicit `now`. -/
def classify_path (path : String) (entry_a entry_b : Option FileEntry)
    (last_a last_b : Option StoredEntry) (endpoint_a endpoint_b : Endpoint)
    (policy : String) (prefer_endpoint : Option String) (manual_behavior : Option String)
    (merge_text_files : Bool) (merge_fallback : String) (now : ℕ) :
    Except String (List Operation × List Conflict) :=
  match entry_a, entry_b with
  | some ea, none =>
    if changed_since_last ea last_a || last_b.isNone then do
      let op ← mkOperation .copy path (some endpoint_a) (some endpoint_b)
        { reason := some "new_or_modified_on_a" }
      pure ([op], [])
    else do
      let op ← mkOperation .delete path none (some endpoint_a)
        { reason := some "deleted_on_b" }
      pure ([op], [])
  | none, some eb =>
    if changed_since_last eb last_b || last_a.isNone then do
      let op ← mkOperation .copy path (some endpoint_b) (some endpoint_a)
        { reason := some "new_or_modified_on_b" }
      pure ([op], [])
    else do
      let op ← mkOperation .delete path none (some endpoint_b)
        { reason := some "deleted_on_a" }
      pure ([op], [])
  | some ea, some eb =>
    if entries_equal ea eb then pure ([], [])
    else
      let changed_a := changed_since_last ea last_a
      let changed_b := changed_since_last eb last_b
      if changed_a && changed_b then
        if should_merge merge_text_files ea eb path last_a last_b then do
          let op ← mkOperation .merge path (some endpoint_a) (some endpoint_b)
            { reason := some "merge_attempt", fallback_policy := some merge_fallback,
              fallback_prefer := prefer_endpoint, fallback_manual_behavior := manual_behavior }
          pure ([op], [])
        else if policy = "newest" then do
          let (winner, loser) := choose_newest ea eb endpoint_a endpoint_b
          let op ← mkOperation .copy path (some winner) (some loser)
            { reason := some "newest_wins" }
          pure ([op], [])
        else if policy = "prefer" ∧ truthyStr prefer_endpoint then do
          let (winner, loser) := choose_preferred (prefer_endpoint.getD "") endpoint_a endpoint_b
          let op ← mkOperation .copy path (some winner) (some loser)
            { reason := some "prefer_policy" }
          pure ([op], [])
        else if policy = "manual" ∧ manual_behavior = some "copy_both" then do
          let ops ← copy_both_operations path endpoint_a endpoint_b ea eb (some now) now
          let conflict ← mkConflict path (endpoint_a, endpoint_b) "manual_copy_both"
            { resolution := some "copy_both", timestamp := some now }
          pure (ops, [conflict])
        else do
          let conflict ← mkConflict path (endpoint_a, endpoint_b) "both_modified"
            { a := some ea, b := some eb }
          pure ([], [conflict])
      else if changed_a then do
        let op ← mkOperation .copy path (some endpoint_a) (some endpoint_b)
          { reason := some "modified_on_a" }
        pure ([op], [])
      else if changed_b then do
        let op ← mkOperation .copy path (some endpoint_b) (some endpoint_a)
          { reason := some "modified_on_b" }
        pure ([op], [])
      else pure ([], [])
  | none, none => do
    let ops_a ←
      if last_a.isSome then do
        let op ← mkOperation .delete path none (some endpoint_a)
          { reason := some "deleted_on_a" }
        pure [op]
      else pure []
    let ops_b ←
      if last_b.isSome then do
        let op ← mkOperation .delete path none (some endpoint_b)
          { reason := some "deleted_on_b" }
        pure [op]
      else pure []
    pure (ops_a ++ ops_b, [])

/-- `sorted(all_paths)`: the union of both snapshots' keys and all state
keys, deduplicated and sorted in Python's string order (lexicographic by
code point, which is Lean's `String` order). -/
def sortedPaths (input : PlannerInput) : List String :=
  let state_paths := input.state.endpoints.foldl (fun acc ep => acc ++ ep.2.map Prod.fst) []
  ((input.snapshot_a.map Prod.fst ++ input.snapshot_b.map Prod.fst ++ state_paths).dedup).insertionSort
    (· ≤ ·)

/-- One iteration of `planner.plan`'s loop for a single path. -/
def planStep (input : PlannerInput) (now : ℕ) (out : PlannerOutput) (path : String) :
    Except String PlannerOutput := do
  let entry_a := input.snapshot_a.lookup path
  let entry_b := input.snapshot_b.lookup path
  let last_a ← get_last_entry input.state input.endpoint_a.id path
  let last_b ← get_last_entry input.state input.endpoint_b.id path
  let (ops, confs) ← classify_path path entry_a entry_b last_a last_b
    input.endpoint_a input.endpoint_b input.policy input.prefer_endpoint
    input.manual_behavior input.merge_text_files input.merge_fallback now
  pure ⟨out.operations ++ ops, out.conflicts ++ confs⟩

/-- `planner.plan`: iterate the sorted path universe, classifying each path.
The wall clock (used only by the manual/copy_both branch) is the explicit
`now`. -/
def plan (input : PlannerInput) (now : ℕ) : Except String PlannerOutput :=
  (sortedPaths input).foldlM (planStep input now) {}

/-! ## Three-way merge (`simple_sync/engine/merge.py`) -/

/-- The line-boundary characters of Python `str.splitlines`. -/
def isLineBreakChar (c : Char) : Bool :=
  c = '\n' || c = '\r' || c = '\x0b' || c = '\x0c' ||
    c = '\x1c' || c = '\x1d' || c = '\x1e' || c = '\x85' ||
    c = '\u2028' || c = '\u2029'

/-- Worker for `str.splitlines(keepends=True)`: `acc` holds the current line
reversed; `"\r\n"` counts as a single break. -/
def splitlinesGo : List Char → List Char → List (List Char)
  | [], acc => if acc.isEmpty then [] else [acc.reverse]
  | '\r' :: '\n' :: rest, acc => (acc.reverse ++ ['\r', '\n']) :: splitlinesGo rest []
  | '\r' :: rest, acc => (acc.reverse ++ ['\r']) :: splitlinesGo rest []
  | c :: rest, acc =>
    if isLineBreakChar c then
      (acc.reverse ++ [c]) :: splitlinesGo rest []
    else
      splitlinesGo rest (c :: acc)

/-- Python `s.splitlines(keepends=True)`. -/
def pySplitlinesKeepends (s : String) : List String :=
  (splitlinesGo s.toList []).map String.mk

/-- `merge.MergeResult` (the `conflicts` default is the empty list installed
by `__post_init__`). -/
structure MergeResult where
  success : Bool
  content : Option String := none
  conflicts : List String := []
  deriving DecidableEq, Repr

/-- Modelled from the Python standard library contract the source relies on
(`difflib.unified_diff` with `lineterm=''`): comparing equal sequences
yields no lines at all, and comparing different sequences yields the two
file headers and a hunk header before any payload line (so always more than
two lines).  The payload below is a representative rendering; only the
"empty iff equal, otherwise length > 2" shape is used by the source's
guards. -/
def unified_diff (a b : List String) : List String :=
  if a = b then []
  else "--- " :: "+++ " :: "@@" ::
    (a.map (fun l => "-" ++ l) ++ b.map (fun l => "+" ++ l))

/-- One `difflib.SequenceMatcher` opcode `(tag, i1, i2, j1, j2)`. -/
structure Opcode where
  tag : String
  i1 : ℕ
  i2 : ℕ
  j1 : ℕ
  j2 : ℕ
  deriving DecidableEq, Repr

/-- Length of the common prefix of two lists. -/
def commonPrefixLen : List String → List String → ℕ
  | x :: xs, y :: ys => if x = y then 1 + commonPrefixLen xs ys else 0
  | _, _ => 0

/-- Modelled from `difflib.SequenceMatcher.get_opcodes`: a monotone cover of
both sequences by `equal` blocks (whose slices agree) and non-`equal`
blocks.  The model uses the common-prefix/suffix decomposition — equal
prefix, one replace/delete/insert block, equal suffix — which satisfies the
opcode contract the source's `_merge_lines` consumes. -/
def getOpcodes (a b : List String) : List Opcode :=
  let p := commonPrefixLen a b
  let s := commonPrefixLen (a.drop p).reverse (b.drop p).reverse
  let la := a.length
  let lb := b.length
  let pre : List Opcode := if 0 < p then [⟨"equal", 0, p, 0, p⟩] else []
  let midA := la - s - p
  let midB := lb - s - p
  let mid : List Opcode :=
    if 0 < midA ∨ 0 < midB then
      [⟨if 0 < midA ∧ 0 < midB then "replace" else if 0 < midA then "delete" else "insert",
        p, la - s, p, lb - s⟩]
    else []
  let post : List Opcode := if 0 < s then [⟨"equal", la - s, la, lb - s, lb⟩] else []
  pre ++ mid ++ post

/-- Python slice `l[i:j]`. -/
def pySlice {α : Type} (l : List α) (i j : ℕ) : List α :=
  (l.take j).drop i

/-- The per-segment walk at the end of `merge._merge_lines`: a segment
changed by both sides is a conflict (`None`), one changed by a single side
emits that side's replacement, an untouched segment emits the base lines. -/
def walkSegments (base a b : List String) (cha chb : List Opcode) :
    List (ℕ × ℕ) → Option (List String)
  | [] => some []
  | (st, en) :: rest =>
    let ma := cha.find? fun o => o.i1 = st && o.i2 = en
    let mb := chb.find? fun o => o.i1 = st && o.i2 = en
    match ma, mb with
    | some _, some _ => none
    | some o, none => (walkSegments base a b cha chb rest).map (pySlice a o.j1 o.j2 ++ ·)
    | none, some o => (walkSegments base a b cha chb rest).map (pySlice b o.j1 o.j2 ++ ·)
    | none, none => (walkSegments base a b cha chb rest).map (pySlice base st en ++ ·)

/-- `merge._merge_lines`: `None` when the base ranges touched by the two
sides overlap, otherwise the merged line list built by walking base
partitioned at the union of change boundaries. -/
def mergeLines (base_lines a_lines b_lines : List String) : Option (List String) :=
  let opcodes_a := getOpcodes base_lines a_lines
  let opcodes_b := getOpcodes base_lines b_lines
  let changes_a := opcodes_a.filter fun o => o.tag ≠ "equal"
  let changes_b := opcodes_b.filter fun o => o.tag ≠ "equal"
  if changes_a.any (fun oa => changes_b.any fun ob => !(oa.i2 ≤ ob.i1 || ob.i2 ≤ oa.i1)) then
    none
  else
    let points := changes_a.flatMap (fun o => [o.i1, o.i2]) ++
      changes_b.flatMap (fun o => [o.i1, o.i2]) ++ [0, base_lines.length]
    let sorted_points := points.dedup.insertionSort (· ≤ ·)
    walkSegments base_lines a_lines b_lines changes_a changes_b
      (sorted_points.zip sorted_points.tail)

/-- Does the last line end in `'\n'` (`a_lines[-1].endswith('\n')`)? -/
def lastEndsWithLF (lines : List String) : Bool :=
  match lines.getLast? with
  | some s => s.toList.getLast? = some '\n'
  | none => false

/-- `merge._create_conflict_markers`. -/
def create_conflict_markers (base_lines a_lines b_lines : List String) : String :=
  let padA : List String := if a_lines.isEmpty || !lastEndsWithLF a_lines then ["\n"] else []
  let padB : List String := if b_lines.isEmpty || !lastEndsWithLF b_lines then ["\n"] else []
  String.join ("<<<<<<< LOCAL\n" :: a_lines ++ padA ++ "=======\n" :: b_lines ++ padB ++
    [">>>>>>> REMOTE\n"])

/-- `merge.merge_three_way`.  `not diff_a or len(diff_a) <= 2` is
`diff_a.length ≤ 2`; the source returns the other side when one side's diff
is trivial, otherwise tries `_merge_lines` and falls back to conflict
markers. -/
def merge_three_way (base current_a current_b : String) : MergeResult :=
  let base_lines := pySplitlinesKeepends base
  let a_lines := pySplitlinesKeepends current_a
  let b_lines := pySplitlinesKeepends current_b
  let diff_a := unified_diff base_lines a_lines
  let diff_b := unified_diff base_lines b_lines
  if diff_a.length ≤ 2 then { success := true, content := some current_b }
  else if diff_b.length ≤ 2 then { success := true, content := some current_a }
  else
    match mergeLines base_lines a_lines b_lines with
    | some merged => { success := true, content := some (String.join merged) }
    | none =>
      { success := false
        content := some (create_conflict_markers base_lines a_lines b_lines)
        conflicts := ["Automatic merge failed - manual resolution required"] }

/-! ## Shell transport results (`simple_sync/ssh/transport.py`) -/

/-- `transport._contains_auth_failure`. -/
def contains_auth_failure (stderr : String) : Bool :=
  pyContains (pyLower stderr) "permission denied" ||
    pyContains (pyLower stderr) "authentication failed"

/-- `transport._contains_prompt`. -/
def contains_prompt (stderr : String) : Bool :=
  [ "password:", "passphrase", "enter pin", "enter passcode"].any fun marker =>
    pyContains (pyLower stderr) marker

/-- `transport.SSHResult`, as produced by `run_ssh_command`: the flags are
functions of the captured stderr. -/
structure SSHResult where
  exit_code : ℤ
  stdout : String
  stderr : String
  auth_failed : Bool
  prompt_detected : Bool
  deriving DecidableEq, Repr

/-- Build the `SSHResult` that `transport.run_ssh_command` returns for a
child process that exited with `exit_code` and produced `stdout`/`stderr`. -/
def mkSSHResult (exit_code : ℤ) (stdout stderr : String) : SSHResult :=
  { exit_code := exit_code, stdout := stdout, stderr := stderr
    auth_failed := contains_auth_failure stderr
    prompt_detected := contains_prompt stderr }

/-! ## Executor transport-result handling (`simple_sync/engine/executor.py`) -/

/-- The canonical escalation message used by the executor. -/
def authPromptMessage : String := "SSH authentication prompt detected; refusing to continue."

/-- The error decision of `executor._delete` for an SSH destination, given
the transport result of `rm -rf`: only a non-zero exit raises, and the
prompt/auth flags are consulted only inside that branch (to replace the
message). -/
def deleteRemoteCheck (result : SSHResult) : Except String Unit :=
  if result.exit_code ≠ 0 then
    .error
      (if result.prompt_detected || result.auth_failed then authPromptMessage
       else if pyStrip result.stderr ≠ "" then pyStrip result.stderr
       else "Remote delete failed.")
  else .ok ()

/-- The error decision of `executor._copy_symlink_to_remote` given the
transport result of `mkdir -p … && ln -sfn …`: only the exit code is
consulted; the prompt/auth flags are ignored entirely. -/
def copySymlinkToRemoteCheck (result : SSHResult) : Except String Unit :=
  if result.exit_code ≠ 0 then
    .error
      (if pyStrip result.stderr ≠ "" then pyStrip result.stderr
       else "Failed to create remote symlink.")
  else .ok ()

/-- The error decision of `executor._ensure_remote_dir`: a flagged result
raises the canonical message regardless of exit code, then a non-zero exit
raises. -/
def ensureRemoteDirCheck (result : SSHResult) : Except String Unit :=
  if result.prompt_detected || result.auth_failed then .error authPromptMessage
  else if result.exit_code ≠ 0 then
    .error
      (if pyStrip result.stderr ≠ "" then pyStrip result.stderr
       else "Failed to create remote directory.")
  else .ok ()

/-- The error decision of `executor._read_file_content` for an SSH endpoint
(`cat` over the channel): only the exit code is consulted. -/
def readFileRemoteCheck (result : SSHResult) : Except String String :=
  if result.exit_code ≠ 0 then .error ("Failed to read remote file: " ++ result.stderr)
  else .ok result.stdout

/-- One operation application as the executor's loop sees it, with the
transport result each remote action will observe scripted in (the raw
`(exit, stdout, stderr)` triple a transport call returns).  Local-only
actions involve no transport. -/
inductive ScriptedOp where
  | deleteRemote (exit_code : ℤ) (stdout stderr : String)
  | copySymlinkRemote (exit_code : ℤ) (stdout stderr : String)
  | ensureRemoteDir (exit_code : ℤ) (stdout stderr : String)
  | mkdirLocal
  | copyLocalLocal
  deriving DecidableEq, Repr

/-- Whether applying one scripted operation raises `ExecutionError`, per the
executor's per-site checks. -/
def checkOp : ScriptedOp → Except String Unit
  | .deleteRemote e out err => deleteRemoteCheck (mkSSHResult e out err)
  | .copySymlinkRemote e out err => copySymlinkToRemoteCheck (mkSSHResult e out err)
  | .ensureRemoteDir e out err => ensureRemoteDirCheck (mkSSHResult e out err)
  | .mkdirLocal => .ok ()
  | .copyLocalLocal => .ok ()

/-- `executor.apply_operations`: operations are applied in order and the
first raised `ExecutionError` aborts the loop.  Returns the operations that
were applied (completed without raising) and the first error, if any. -/
def applyScripted : List ScriptedOp → List ScriptedOp × Option String
  | [] => ([], none)
  | op :: rest =>
    match checkOp op with
    | .ok _ =>
      let (applied, err) := applyScripted rest
      (op :: applied, err)
    | .error msg => ([], some msg)

/-- The merge invocation performed by `executor._merge`. -/
structure MergeCall where
  base : String
  left : String
  right : String
  deriving DecidableEq, Repr

/-- The base-selection step of `executor._merge` (lines 340–355): the local
`base_content` starts as `None`, the `if state:` block is a `pass` (the
state store keeps no file content), so the call is always
`_simple_two_way_merge(content_a, content_b)` =
`merge_three_way("", content_a, content_b)`. -/
def executorMergeBase (state : Option ProfileState) : Option String :=
  match state with
  | some _ => none
  | none => none

/-- The merge invocation `executor._merge` issues once both reads succeeded
and neither payload looked binary: three-way with the stored base when one
is present, else the degraded two-way merge with empty base. -/
def executorMergeCall (state : Option ProfileState) (content_a content_b : String) :
    MergeCall :=
  match executorMergeBase state with
  | some base => ⟨base, content_a, content_b⟩
  | none => ⟨"", content_a, content_b⟩

/-- `executor._merge` up to the point a merge routine is invoked: `none`
when no merge happens (dry-run, a failed read, or binary-looking content —
those paths fall back or return), otherwise the `MergeCall` performed. -/
def execMergeInvocation (dry_run : Bool) (state : Option ProfileState)
    (read_a read_b : Except String String) : Option MergeCall :=
  if dry_run then none
  else
    match read_a, read_b with
    | .ok content_a, .ok content_b =>
      if is_binary_content (utf8Bytes content_a) || is_binary_content (utf8Bytes content_b) then
        none
      else some (executorMergeCall state content_a content_b)
    | _, _ => none

/-! ## Coordinator (`simple_sync/cli.py`, `SyncRunner`) -/

/-- Conversion of a planner `Conflict` into the persisted `ConflictRecord`
performed by `SyncRunner._persist_state` via `state_store.record_conflict`. -/
def conflictToRecord (c : Conflict) (now : ℚ) : ConflictRecord :=
  let ts : ℚ :=
    match c.metadata.timestamp with
    | some t => if t = 0 then now else (t : ℚ)
    | none => now
  { path := c.path, reason := c.reason
    endpoints := (c.endpoints.1.id, c.endpoints.2.id)
    timestamp := ts, resolution := c.metadata.resolution, metadata := c.metadata }

/-- `SyncRunner._persist_state`: builds a **fresh** `ProfileState` for the
profile, records every entry of the two post-run snapshots, then records
exactly this run's conflicts.  `prev` — the state loaded at the start of the
run — is accepted here to mirror the run's data flow but is never consulted
by the source. -/
def persistStateAfterRun (prev : ProfileState) (profile : String)
    (endpoint_a_id endpoint_b_id : String) (snap_a snap_b : List FileEntry)
    (conflicts : List Conflict) (now : ℚ) : ProfileState :=
  let _ := prev
  let st0 : ProfileState := { profile := profile }
  let st1 := snap_a.foldl (fun st e => record_entry st endpoint_a_id e) st0
  let st2 := snap_b.foldl (fun st e => record_entry st endpoint_b_id e) st1
  conflicts.foldl
    (fun st c =>
      record_conflict st c.path c.reason (c.endpoints.1.id, c.endpoints.2.id)
        c.metadata.resolution c.metadata.timestamp c.metadata now)
    st2

/-- The externally visible steps of `SyncRunner.run` from the
blocking-conflict check on (`cli.py` lines 435–472): persisting state,
failing with a message, applying the planned operations, stopping a dry run,
or finishing.  The outcome of the apply step itself is abstracted — the
events record only that the run proceeded to apply. -/
inductive RunEvent where
  | persist (conflicts : List Conflict)
  | fail (message : String)
  | applyOps (operations : List Operation)
  | dryRunStop
  | finish
  deriving DecidableEq, Repr

/-- The conflict-gate failure message. -/
def conflictsMessage : String := "Conflicts detected; resolve before rerunning."

/-- `SyncRunner.run` after planning: compute the blocking conflicts
(`reason != "manual_copy_both"`); when any exist, persist first unless
dry-running, then fail; a dry run then stops; otherwise apply and persist. -/
def runAfterPlan (planResult : PlannerOutput) (dry_run : Bool) : List RunEvent :=
  let blocking := planResult.conflicts.filter fun c => c.reason ≠ "manual_copy_both"
  if !blocking.isEmpty then
    if !dry_run then
      [RunEvent.persist planResult.conflicts, RunEvent.fail conflictsMessage]
    else
      [RunEvent.fail conflictsMessage]
  else if dry_run then [RunEvent.dryRunStop]
  else
    [RunEvent.applyOps planResult.operations, RunEvent.persist planResult.conflicts,
      RunEvent.finish]

/-! ## Generic helpers and concrete inputs for witnesses -/

instance {ε α : Type} [DecidableEq ε] [DecidableEq α] : DecidableEq (Except ε α) := fun a b =>
  match a, b with
  | .ok x, .ok y =>
    if h : x = y then .isTrue (by rw [h]) else .isFalse (by intro hc; cases hc; exact h rfl)
  | .error x, .error y =>
    if h : x = y then .isTrue (by rw [h]) else .isFalse (by intro hc; cases hc; exact h rfl)
  | .ok _, .error _ => .isFalse (by intro hc; cases hc)
  | .error _, .ok _ => .isFalse (by intro hc; cases hc)

/-- A concrete local endpoint `a`. -/
def epA : Endpoint := { id := "a", type := .local, path := "/tmp/a" }

/-- A concrete local endpoint `b`. -/
def epB : Endpoint := { id := "b", type := .local, path := "/tmp/b" }

def c1StoredEntry : StoredEntry :=
  { path := "notes.md", is_dir := false, size := 5, mtime := 100 }

/-- A profile state holding a prior stored record for `notes.md` on both
endpoints. -/
def c1State : ProfileState :=
  { profile := "p"
    endpoints := [("a", [("notes.md", c1StoredEntry)]), ("b", [("notes.md", c1StoredEntry)])] }

/-- A conflict record present in the previously persisted state. -/
def c3PriorRecord : ConflictRecord :=
  { path := "f", reason := "both_modified", endpoints := ("a", "b"), timestamp := 5 }

def c3PrevState : ProfileState := { profile := "p", conflicts := [c3PriorRecord] }

def c4Conflict : Conflict :=
  { path := "f", endpoints := (epA, epB), reason := "both_modified" }

def c4Plan : PlannerOutput := { operations := [], conflicts := [c4Conflict] }

/-- A current entry equal on both sides (size 5, mtime 10). -/
def bothEntry : FileEntry := { path := "f", is_dir := false, size := 5, mtime := 10 }

/-- A stale stored record (mtime 1), so the current entry counts as changed. -/
def staleStored : StoredEntry := { path := "f", is_dir := false, size := 5, mtime := 1 }

/-- A planner input under manual/copy_both with one both-changed path
(`f`, present on both sides with differing sizes, no prior state). -/
def c2Input : PlannerInput :=
  { profile := "p"
    snapshot_a := [("f", { path := "f", is_dir := false, size := 1, mtime := 10 })]
    snapshot_b := [("f", { path := "f", is_dir := false, size := 2, mtime := 10 })]
    endpoint_a := epA
    endpoint_b := epB
    state := { profile := "p" }
    policy := "manual"
    manual_behavior := some "copy_both" }

/-- Folding two pointwise-equal monadic steps over a list gives the same
result. -/
theorem foldlM_congr_fun {ε α β : Type} {f g : β → α → Except ε β}
    (h : ∀ b a, f b a = g b a) :
    ∀ (l : List α) (init : β), l.foldlM f init = l.foldlM g init := by
  intro l
  induction l with
  | nil => intro init; rfl
  | cons a as ih =>
    intro init
    rw [List.foldlM_cons, List.foldlM_cons, h]
    cases g init a with
    | ok b => simpa [Except.bind] using ih b
    | error e => rfl

/-! ## Claim C1 — merge base selection in the executor -/

/-- **C1, counterexample.**  The claim says the executor's merge uses the
prior stored record's content as base when such a record exists, with an
empty base only when no prior record exists.  Here a prior record exists for
the path on both endpoints, both reads succeed, neither payload is binary,
and the run is not a dry run — yet the merge is invoked with the empty base. -/
theorem c1_counterexample :
    get_last_entry c1State "a" "notes.md" = .ok (some c1StoredEntry) ∧
      get_last_entry c1State "b" "notes.md" = .ok (some c1StoredEntry) ∧
      execMergeInvocation false (some c1State) (.ok "left\n") (.ok "right\n") =
        some { base := "", left := "left\n", right := "right\n" } :=
  ⟨rfl, rfl, rfl⟩

/-- **C1, amended.**  When the executor applies a merge operation
(non-dry-run, both reads succeed, neither payload binary), it always invokes
the merge routine with an **empty** base — the state store keeps no file
content, so `base_content` is never populated and the degraded two-way merge
(`merge_three_way` with base `""`) runs regardless of whether a prior stored
record exists. -/
theorem c1_merge_base_always_empty (state : Option ProfileState) (content_a content_b : String)
    (ha : is_binary_content (utf8Bytes content_a) = false)
    (hb : is_binary_content (utf8Bytes content_b) = false) :
    execMergeInvocation false state (.ok content_a) (.ok content_b) =
      some { base := "", left := content_a, right := content_b } := by
  unfold execMergeInvocation executorMergeCall executorMergeBase
  cases state <;> simp [ha, hb]

/-- **C1, witness** for the amended theorem at a concrete non-binary input
with a prior stored record present. -/
theorem c1_merge_base_always_empty_witness :
    execMergeInvocation false (some c1State) (.ok "x\n") (.ok "y\n") =
      some { base := "", left := "x\n", right := "y\n" } :=
  c1_merge_base_always_empty (some c1State) "x\n" "y\n" rfl rfl

/-! ## Claim C3 — conflict persistence across runs -/

/-- **C3, counterexample.**  The claim says the conflict list persisted at
the end of a run contains every conflict record of the previously persisted
state.  But `SyncRunner._persist_state` builds a fresh state and records only
this run's conflicts: a run with no new conflicts persists an **empty**
conflict list even though the prior state held a record. -/
theorem c3_counterexample :
    c3PrevState.conflicts = [c3PriorRecord] ∧
      (persistStateAfterRun c3PrevState "p" "a" "b" [] [] [] 0).conflicts = [] :=
  ⟨rfl, rfl⟩

/-- `record_entry` never touches the conflict list. -/
theorem record_entry_conflicts (st : ProfileState) (eid : String) (e : FileEntry) :
    (record_entry st eid e).conflicts = st.conflicts := rfl

/-- Recording a list of snapshot entries never touches the conflict list. -/
theorem foldl_record_entry_conflicts (entries : List FileEntry) (eid : String) :
    ∀ st : ProfileState,
      (entries.foldl (fun st e => record_entry st eid e) st).conflicts = st.conflicts := by
  induction entries with
  | nil => intro st; rfl
  | cons e es ih => intro st; rw [List.foldl_cons, ih, record_entry_conflicts]

/-- Recording a list of conflicts appends exactly their converted records. -/
theorem foldl_record_conflict_conflicts (now : ℚ) :
    ∀ (cs : List Conflict) (st : ProfileState),
      (cs.foldl
        (fun st c =>
          record_conflict st c.path c.reason (c.endpoints.1.id, c.endpoints.2.id)
            c.metadata.resolution c.metadata.timestamp c.metadata now)
        st).conflicts = st.conflicts ++ cs.map (conflictToRecord · now) := by
  intro cs
  induction cs with
  | nil => intro st; simp
  | cons c cs ih =>
    intro st
    rw [List.foldl_cons, ih]
    simp [record_conflict, conflictToRecord]

/-- **C3, amended.**  The conflict list persisted at the end of a run is
exactly this run's conflict records (in plan order): the previously persisted
state's conflicts are discarded because `_persist_state` starts from a fresh
`ProfileState`. -/
theorem c3_persisted_conflicts_are_this_runs (prev : ProfileState) (profile : String)
    (ida idb : String) (snap_a snap_b : List FileEntry) (conflicts : List Conflict) (now : ℚ) :
    (persistStateAfterRun prev profile ida idb snap_a snap_b conflicts now).conflicts =
      conflicts.map (conflictToRecord · now) := by
  unfold persistStateAfterRun
  rw [foldl_record_conflict_conflicts, foldl_record_entry_conflicts,
    foldl_record_entry_conflicts]
  rfl

/-! ## Claim C4 — blocking-conflict gate in the coordinator -/

/-- **C4.**  A run whose plan contains a conflict with reason other than
`"manual_copy_both"` fails with exactly `"Conflicts detected; resolve before
rerunning."` and applies no operations; in non-dry-run mode the state
(including this run's conflicts) is persisted before the failure, while a
dry run persists nothing.  Conversely, a run whose conflicts all carry
reason `"manual_copy_both"` never emits that failure. -/
theorem c4_blocking_conflict_gate (planResult : PlannerOutput) (dry_run : Bool) :
    ((∃ c ∈ planResult.conflicts, c.reason ≠ "manual_copy_both") →
      runAfterPlan planResult dry_run =
        if dry_run then [RunEvent.fail conflictsMessage]
        else [RunEvent.persist planResult.conflicts, RunEvent.fail conflictsMessage]) ∧
    ((∀ c ∈ planResult.conflicts, c.reason = "manual_copy_both") →
      RunEvent.fail conflictsMessage ∉ runAfterPlan planResult dry_run) := by
  constructor
  · rintro ⟨c, hc, hr⟩
    have hne : (planResult.conflicts.filter fun c => c.reason ≠ "manual_copy_both") ≠ [] := by
      intro hnil
      have := List.filter_eq_nil_iff.mp hnil c hc
      simp [hr] at this
    unfold runAfterPlan
    rw [if_pos]
    · cases dry_run <;> simp
    · simpa [List.isEmpty_iff] using hne
  · intro hall
    have hnil : (planResult.conflicts.filter fun c => c.reason ≠ "manual_copy_both") = [] := by
      apply List.filter_eq_nil_iff.mpr
      intro c hc
      simp [hall c hc]
    unfold runAfterPlan
    rw [hnil]
    cases dry_run <;> simp

/-- **C4, witness**: a concrete plan with one `both_modified` conflict, not a
dry run — the trace persists then fails. -/
theorem c4_blocking_conflict_gate_witness :
    runAfterPlan c4Plan false =
      [RunEvent.persist c4Plan.conflicts, RunEvent.fail conflictsMessage] :=
  (c4_blocking_conflict_gate c4Plan false).1 ⟨c4Conflict, by simp [c4Plan], by decide⟩

/-! ## Claim C7 — transport prompt/auth flags during apply -/

/-- **C7, counterexample.**  The claim says a transport result carrying
`prompt_detected` or `auth_failed` always stops the run before any further
action.  But `executor._delete` consults those flags only when the exit code
is non-zero: a remote `rm -rf` whose stderr contains `Password:` but which
exited 0 raises nothing, and the next operation is still applied. -/
theorem c7_counterexample :
    (mkSSHResult 0 "" "Password: ").prompt_detected = true ∧
      applyScripted [ScriptedOp.deleteRemote 0 "" "Password: ", ScriptedOp.mkdirLocal] =
        ([ScriptedOp.deleteRemote 0 "" "Password: ", ScriptedOp.mkdirLocal], none) :=
  ⟨rfl, rfl⟩

/-- **C7, amended.**  The flag escalation holds at the call sites that check
it: a flagged transport result aborts the run with the canonical message —
with no further operation applied — during a remote delete whenever the exit
code is also non-zero, and during `_ensure_remote_dir` regardless of exit
code.  (A flagged result with exit code 0 at a remote delete, remote symlink
creation, or remote file read is not checked and does not stop the run.) -/
theorem c7_flagged_results_abort :
    (∀ (e : ℤ) (out err : String) (rest : List ScriptedOp),
        (contains_prompt err || contains_auth_failure err) = true → e ≠ 0 →
        applyScripted (ScriptedOp.deleteRemote e out err :: rest) =
          ([], some authPromptMessage)) ∧
    (∀ (e : ℤ) (out err : String) (rest : List ScriptedOp),
        (contains_prompt err || contains_auth_failure err) = true →
        applyScripted (ScriptedOp.ensureRemoteDir e out err :: rest) =
          ([], some authPromptMessage)) := by
  constructor
  · intro e out err rest hflag hexit
    unfold applyScripted checkOp deleteRemoteCheck mkSSHResult
    simp [hexit, hflag]
  · intro e out err rest hflag
    unfold applyScripted checkOp ensureRemoteDirCheck mkSSHResult
    simp [hflag]

/-- **C7, witness** for the amended theorem: a failed remote delete whose
stderr shows a password prompt stops the run with the canonical message. -/
theorem c7_flagged_results_abort_witness :
    applyScripted [ScriptedOp.deleteRemote 1 "" "Password: ", ScriptedOp.mkdirLocal] =
      ([], some authPromptMessage) :=
  c7_flagged_results_abort.1 1 "" "Password: " [ScriptedOp.mkdirLocal] (by decide) (by decide)

/-! ## Claims C5, C6, C10 — both-changed conflict resolution in the planner -/

/-- **C6, counterexample.**  The claim quantifies over every path present on
both sides where both sides changed since the last state, but omits that the
two current entries must also differ: when both sides changed to *identical*
entries, the planner classifies the path as equal and emits no copy at all —
not "exactly one copy from the endpoint with the larger mtime". -/
theorem c6_counterexample :
    changed_since_last bothEntry (some staleStored) = true ∧
      classify_path "f" (some bothEntry) (some bothEntry) (some staleStored)
        (some staleStored) epA epB "newest" none none true "newest" 0 = .ok ([], []) :=
  ⟨rfl, rfl⟩

/-- **C6, amended.**  For every path present on both sides whose current
entries *differ* (in `is_dir`, `size`, or truncated mtime), where both sides
changed since the last state, under policy `newest` with no merge op
applicable, the planner emits exactly one copy whose source is the endpoint
with the larger mtime (ties go to A) and records no conflict. -/
theorem c6_newest_picks_larger_mtime (path : String) (ea eb : FileEntry)
    (la lb : Option StoredEntry) (A B : Endpoint) (pe mb : Option String) (mtf : Bool)
    (mf : String) (now : ℕ)
    (hnorm : normalize_relative_path path = .ok path)
    (hne : entries_equal ea eb = false)
    (hca : changed_since_last ea la = true)
    (hcb : changed_since_last eb lb = true)
    (hsm : should_merge mtf ea eb path la lb = false) :
    classify_path path (some ea) (some eb) la lb A B "newest" pe mb mtf mf now =
      .ok ([{ type := .copy, path := path
              source := some (if ea.mtime ≥ eb.mtime then A else B)
              destination := some (if ea.mtime ≥ eb.mtime then B else A)
              metadata := { reason := some "newest_wins" } }], []) := by
  unfold classify_path
  simp only [hne, hca, hcb, hsm, Bool.false_eq_true, if_false, Bool.and_self, if_true,
    choose_newest]
  split <;> simp [mkOperation, hnorm, Bind.bind, Except.bind, Except.map, pure, Except.pure]

/-- **C6, witness**: endpoint A carries the larger mtime and wins. -/
theorem c6_newest_picks_larger_mtime_witness :
    classify_path "f" (some { path := "f", is_dir := false, size := 7, mtime := 20 })
        (some bothEntry) (some staleStored) (some staleStored) epA epB
        "newest" none none false "newest" 0 =
      .ok ([{ type := .copy, path := "f", source := some epA, destination := some epB
              metadata := { reason := some "newest_wins" } }], []) := by
  have h := c6_newest_picks_larger_mtime "f" { path := "f", is_dir := false, size := 7, mtime := 20 }
    bothEntry (some staleStored) (some staleStored) epA epB none none false "newest" 0
    rfl rfl rfl rfl rfl
  simpa using h

/-- **C5, counterexample.**  Same omission as C6: when both sides changed to
identical entries under manual/copy_both, the planner emits no copies and no
conflict, not the claimed two suffixed copies plus one conflict record. -/
theorem c5_counterexample :
    changed_since_last bothEntry (some staleStored) = true ∧
      classify_path "f" (some bothEntry) (some bothEntry) (some staleStored)
        (some staleStored) epA epB "manual" none (some "copy_both") true "newest" 7 =
        .ok ([], []) :=
  ⟨rfl, rfl⟩

/-- **C5, amended.**  For every path present on both sides whose current
entries differ, where both sides changed since the last state, under policy
`manual` with `manual_behavior = copy_both` and no merge op applicable, the
planner emits exactly two copies — one per direction, each suffixed
`<path>.conflict-<source_endpoint_id>-<timestamp>` with the same wall-clock
timestamp — and appends exactly one conflict with reason
`"manual_copy_both"` carrying that timestamp in its metadata. -/
theorem c5_manual_copy_both (path : String) (ea eb : FileEntry)
    (la lb : Option StoredEntry) (A B : Endpoint) (pe : Option String) (mtf : Bool)
    (mf : String) (now : ℕ)
    (hnorm : normalize_relative_path path = .ok path)
    (hne : entries_equal ea eb = false)
    (hca : changed_since_last ea la = true)
    (hcb : changed_since_last eb lb = true)
    (hsm : should_merge mtf ea eb path la lb = false) :
    classify_path path (some ea) (some eb) la lb A B "manual" pe (some "copy_both") mtf mf now =
      .ok
        ([{ type := .copy, path := path, source := some A, destination := some B
            metadata := { reason := some "manual_copy_both_copy"
                          target_suffix :=
                            some (path ++ ".conflict-" ++ A.id ++ "-" ++ toString now) } },
          { type := .copy, path := path, source := some B, destination := some A
            metadata := { reason := some "manual_copy_both_copy"
                          target_suffix :=
                            some (path ++ ".conflict-" ++ B.id ++ "-" ++ toString now) } }],
         [{ path := path, endpoints := (A, B), reason := "manual_copy_both"
            metadata := { resolution := some "copy_both", timestamp := some now } }]) := by
  unfold classify_path copy_both_operations
  simp [hne, hca, hcb, hsm, mkOperation, mkConflict, hnorm, Bind.bind, Except.bind,
    Except.map, pure, Except.pure]

/-- **C5, witness** at concrete differing entries, timestamp 1700000000. -/
theorem c5_manual_copy_both_witness :
    classify_path "f" (some { path := "f", is_dir := false, size := 7, mtime := 20 })
        (some bothEntry) (some staleStored) (some staleStored) epA epB
        "manual" none (some "copy_both") false "newest" 1700000000 =
      .ok
        ([{ type := .copy, path := "f", source := some epA, destination := some epB
            metadata := { reason := some "manual_copy_both_copy"
                          target_suffix := some "f.conflict-a-1700000000" } },
          { type := .copy, path := "f", source := some epB, destination := some epA
            metadata := { reason := some "manual_copy_both_copy"
                          target_suffix := some "f.conflict-b-1700000000" } }],
         [{ path := "f", endpoints := (epA, epB), reason := "manual_copy_both"
            metadata := { resolution := some "copy_both", timestamp := some 1700000000 } }]) := by
  have h := c5_manual_copy_both "f" { path := "f", is_dir := false, size := 7, mtime := 20 }
    bothEntry (some staleStored) (some staleStored) epA epB none false "newest" 1700000000
    rfl rfl rfl rfl rfl
  simpa [epA, epB] using h

/-- **C10, counterexample.**  As with C5/C6, the claim omits that the current
entries must differ: two identically-changed sides under the prefer policy with an
unmatched `prefer_endpoint` produce no operation at all rather than a copy
A→B. -/
theorem c10_counterexample :
    changed_since_last bothEntry (some staleStored) = true ∧
      classify_path "f" (some bothEntry) (some bothEntry) (some staleStored)
        (some staleStored) epA epB "prefer" (some "c") none true "newest" 0 = .ok ([], []) :=
  ⟨rfl, rfl⟩

/-- **C10, amended.**  For every path present on both sides whose current
entries differ, where both sides changed since the last state, under policy
`prefer` with a non-empty `prefer_endpoint` matching neither endpoint id and
no merge op applicable, the planner silently defaults to a single copy from
endpoint A to endpoint B — it does not fail and records no conflict. -/
theorem c10_prefer_unmatched_defaults_to_a (path : String) (ea eb : FileEntry)
    (la lb : Option StoredEntry) (A B : Endpoint) (p : String) (mb : Option String)
    (mtf : Bool) (mf : String) (now : ℕ)
    (hnorm : normalize_relative_path path = .ok path)
    (hne : entries_equal ea eb = false)
    (hca : changed_since_last ea la = true)
    (hcb : changed_since_last eb lb = true)
    (hsm : should_merge mtf ea eb path la lb = false)
    (hp : p ≠ "")
    (hpa : A.id ≠ p)
    (hpb : B.id ≠ p) :
    classify_path path (some ea) (some eb) la lb A B "prefer" (some p) mb mtf mf now =
      .ok ([{ type := .copy, path := path, source := some A, destination := some B
              metadata := { reason := some "prefer_policy" } }], []) := by
  have hne' : p.isEmpty = false := by
    rcases h : p.isEmpty with _ | _
    · rfl
    · exact absurd ((String.isEmpty_iff p).mp h) hp
  unfold classify_path choose_preferred
  simp [hne, hca, hcb, hsm, truthyStr, hne', hpa, hpb, mkOperation, hnorm, Bind.bind,
    Except.bind, Except.map, pure, Except.pure]

/-- **C10, witness** at concrete differing entries with `prefer = "c"`. -/
theorem c10_prefer_unmatched_defaults_to_a_witness :
    classify_path "f" (some { path := "f", is_dir := false, size := 7, mtime := 20 })
        (some bothEntry) (some staleStored) (some staleStored) epA epB
        "prefer" (some "c") none false "newest" 0 =
      .ok ([{ type := .copy, path := "f", source := some epA, destination := some epB
              metadata := { reason := some "prefer_policy" } }], []) :=
  c10_prefer_unmatched_defaults_to_a "f" { path := "f", is_dir := false, size := 7, mtime := 20 }
    bothEntry (some staleStored) (some staleStored) epA epB "c" none false "newest" 0
    rfl rfl rfl rfl rfl (by decide) (by decide) (by decide)

/-! ## Claim C2 — planner determinism -/

/-- **C2, counterexample.**  The claim says the planner is a deterministic
function of snapshots, state, endpoints, and conflict configuration for
*every* policy, including manual/copy_both.  But the manual/copy_both branch
reads the wall clock (`int(time.time())`) and bakes it into each
`target_suffix` and the conflict metadata, so two invocations at different
wall-clock seconds produce different operation lists. -/
theorem c2_counterexample : plan c2Input 1 ≠ plan c2Input 2 := by decide

/-- `_classify_path` consults the clock only in the manual/copy_both
branch. -/
theorem classify_path_now_irrel (path : String) (entry_a entry_b : Option FileEntry)
    (la lb : Option StoredEntry) (A B : Endpoint) (policy : String)
    (pe mb : Option String) (mtf : Bool) (mf : String) (n1 n2 : ℕ)
    (h : ¬(policy = "manual" ∧ mb = some "copy_both")) :
    classify_path path entry_a entry_b la lb A B policy pe mb mtf mf n1 =
      classify_path path entry_a entry_b la lb A B policy pe mb mtf mf n2 := by
  unfold classify_path
  cases entry_a <;> cases entry_b <;> try rfl
  split_ifs <;> rfl

/-- One planner loop iteration is clock-independent away from
manual/copy_both. -/
theorem planStep_now_irrel (input : PlannerInput) (n1 n2 : ℕ)
    (h : ¬(input.policy = "manual" ∧ input.manual_behavior = some "copy_both")) :
    ∀ (out : PlannerOutput) (path : String),
      planStep input n1 out path = planStep input n2 out path := by
  intro out path
  have hcl : ∀ (ea eb : Option FileEntry) (la lb : Option StoredEntry),
      classify_path path ea eb la lb input.endpoint_a input.endpoint_b input.policy
        input.prefer_endpoint input.manual_behavior input.merge_text_files
        input.merge_fallback n1 =
      classify_path path ea eb la lb input.endpoint_a input.endpoint_b input.policy
        input.prefer_endpoint input.manual_behavior input.merge_text_files
        input.merge_fallback n2 :=
    fun ea eb la lb =>
      classify_path_now_irrel path ea eb la lb input.endpoint_a input.endpoint_b
        input.policy input.prefer_endpoint input.manual_behavior input.merge_text_files
        input.merge_fallback n1 n2 h
  simp only [planStep, hcl]

/-- **C2, amended.**  The planner is a deterministic function of its declared
inputs for every policy *other than* manual/copy_both: two invocations of
`plan` with identical snapshots, state, endpoints, and conflict
configuration — but possibly different wall-clock values — produce identical
operation and conflict lists.  Under manual/copy_both the output additionally
depends on the wall-clock second read during planning (see the
counterexample), and only invocations sharing that clock value coincide. -/
theorem c2_plan_deterministic_modulo_clock (input : PlannerInput) (n1 n2 : ℕ)
    (h : ¬(input.policy = "manual" ∧ input.manual_behavior = some "copy_both")) :
    plan input n1 = plan input n2 := by
  unfold plan
  exact foldlM_congr_fun (planStep_now_irrel input n1 n2 h) _ _

/-- **C2, witness**: the counterexample input, under policy `newest` instead,
is clock-independent. -/
theorem c2_plan_deterministic_modulo_clock_witness :
    plan { c2Input with policy := "newest", manual_behavior := none } 1 =
      plan { c2Input with policy := "newest", manual_behavior := none } 2 :=
  c2_plan_deterministic_modulo_clock
    { c2Input with policy := "newest", manual_behavior := none } 1 2 (by decide)

/-! ## Claim C9 — merge of an unchanged side -/

set_option maxHeartbeats 1000000 in
/-- Flattening the split lines reconstructs the input: `splitlines` with
`keepends=True` loses nothing. -/
theorem splitlinesGo_flatten (cs acc : List Char) :
    (splitlinesGo cs acc).flatten = acc.reverse ++ cs := by
  induction cs, acc using splitlinesGo.induct with
  | case1 acc hacc =>
    have h : acc = [] := by simpa using hacc
    subst h
    rfl
  | case2 acc hacc =>
    rw [splitlinesGo, if_neg hacc]
    simp
  | case3 rest acc ih =>
    rw [splitlinesGo]
    simp [ih]
  | case4 rest acc hne ih =>
    rw [splitlinesGo.eq_3 acc rest hne]
    simp [ih]
  | case5 c rest acc h1 h2 hb ih =>
    rw [splitlinesGo.eq_4 acc c rest h1 h2, if_pos hb]
    simp [ih]
  | case6 c rest acc h1 h2 hb ih =>
    rw [splitlinesGo.eq_4 acc c rest h1 h2, if_neg hb]
    simp [ih]

/-- `str.splitlines(keepends=True)` is injective: joining the pieces
recovers the string. -/
theorem pySplitlinesKeepends_inj {a b : String}
    (h : pySplitlinesKeepends a = pySplitlinesKeepends b) : a = b := by
  have hcomp : (String.toList ∘ String.mk) = id := funext fun cs => rfl
  have hlines : splitlinesGo a.toList [] = splitlinesGo b.toList [] := by
    have h2 := congrArg (List.map String.toList) h
    simpa [pySplitlinesKeepends, List.map_map, hcomp] using h2
  have hflat : a.toList = b.toList := by
    have h3 := congrArg List.flatten hlines
    rw [splitlinesGo_flatten, splitlinesGo_flatten] at h3
    simpa using h3
  exact congrArg String.mk hflat

/-- Comparing a line list against itself yields no diff output. -/
theorem unified_diff_self (l : List String) : unified_diff l l = [] := by
  simp [unified_diff]

/-- The source's guard `len(diff) <= 2` holds exactly when the compared line
lists are equal. -/
theorem unified_diff_length_le_two_iff (a b : List String) :
    (unified_diff a b).length ≤ 2 ↔ a = b := by
  unfold unified_diff
  split
  · rename_i heq
    simp [heq]
  · rename_i hne
    simp only [List.length_cons, List.length_append, List.length_map]
    constructor
    · intro hle
      omega
    · intro heq
      exact absurd heq hne

/-- **C9.**  For every pair of strings `base` and `x`, the three-way merge
with one side unchanged succeeds and returns the other side verbatim:
`merge_three_way base base x` succeeds with content `x`, and
`merge_three_way base x base` succeeds with content `x`. -/
theorem c9_merge_unchanged_side (base x : String) :
    merge_three_way base base x = { success := true, content := some x } ∧
      merge_three_way base x base = { success := true, content := some x } := by
  constructor
  · unfold merge_three_way
    simp [unified_diff_self]
  · unfold merge_three_way
    by_cases h : pySplitlinesKeepends x = pySplitlinesKeepends base
    · have hx : x = base := pySplitlinesKeepends_inj h
      subst hx
      simp [unified_diff_self]
    · have h2 : ¬(unified_diff (pySplitlinesKeepends base) (pySplitlinesKeepends x)).length ≤ 2 := by
        rw [unified_diff_length_le_two_iff]
        exact fun hh => h hh.symm
      simp [unified_diff_self, h2]

/-! ## Claim C8 — path normalization properties -/

/-- `splitSlash` never returns the empty list. -/
theorem splitSlash_ne_nil (cs : List Char) : splitSlash cs ≠ [] := by
  cases cs with
  | nil => simp [splitSlash]
  | cons c rest =>
    rw [splitSlash]
    split
    · simp
    · split <;> simp

/-- No segment produced by `splitSlash` contains a slash. -/
theorem splitSlash_no_slash (cs : List Char) : ∀ q ∈ splitSlash cs, '/' ∉ q := by
  induction cs with
  | nil =>
    intro q hq
    simp [splitSlash] at hq
    simp [hq]
  | cons c rest ih =>
    intro q hq
    by_cases hc : c = '/'
    · subst hc
      rw [splitSlash, if_pos rfl] at hq
      rcases List.mem_cons.mp hq with h | h
      · simp [h]
      · exact ih q h
    · rw [splitSlash, if_neg hc] at hq
      rcases hsp : splitSlash rest with _ | ⟨p, ps⟩
      · exact absurd hsp (splitSlash_ne_nil rest)
      · rw [hsp] at hq
        rcases List.mem_cons.mp hq with h | h
        · subst h
          intro hmem
          rcases List.mem_cons.mp hmem with h2 | h2
          · exact hc h2.symm
          · exact ih p (hsp ▸ List.mem_cons_self p ps) h2
        · exact ih q (hsp ▸ List.mem_cons_of_mem p h)

/-- Every character of a `splitSlash` segment came from the input. -/
theorem splitSlash_chars (cs : List Char) :
    ∀ q ∈ splitSlash cs, ∀ c ∈ q, c ∈ cs := by
  induction cs with
  | nil =>
    intro q hq c hc
    simp [splitSlash] at hq
    subst hq
    simp at hc
  | cons d rest ih =>
    intro q hq c hc
    by_cases hd : d = '/'
    · subst hd
      rw [splitSlash, if_pos rfl] at hq
      rcases List.mem_cons.mp hq with h | h
      · subst h; simp at hc
      · exact List.mem_cons_of_mem _ (ih q h c hc)
    · rw [splitSlash, if_neg hd] at hq
      rcases hsp : splitSlash rest with _ | ⟨p, ps⟩
      · exact absurd hsp (splitSlash_ne_nil rest)
      · rw [hsp] at hq
        rcases List.mem_cons.mp hq with h | h
        · subst h
          rcases List.mem_cons.mp hc with h2 | h2
          · simp [h2]
          · exact List.mem_cons_of_mem _ (ih p (hsp ▸ List.mem_cons_self p ps) c h2)
        · exact List.mem_cons_of_mem _ (ih q (hsp ▸ List.mem_cons_of_mem p h) c hc)

/-- A slash-free list splits into itself. -/
theorem splitSlash_single (p : List Char) (hp : '/' ∉ p) : splitSlash p = [p] := by
  induction p with
  | nil => rfl
  | cons c p' ih =>
    have hc : c ≠ '/' := fun h => hp (h ▸ List.mem_cons_self c p')
    have hp' : '/' ∉ p' := fun h => hp (List.mem_cons_of_mem c h)
    rw [splitSlash, if_neg hc, ih hp']

/-- Splitting a slash-free segment followed by a slash peels it off. -/
theorem splitSlash_append (p rest : List Char) (hp : '/' ∉ p) :
    splitSlash (p ++ '/' :: rest) = p :: splitSlash rest := by
  induction p with
  | nil =>
    rw [List.nil_append, splitSlash, if_pos rfl]
  | cons c p' ih =>
    have hc : c ≠ '/' := fun h => hp (h ▸ List.mem_cons_self c p')
    have hp' : '/' ∉ p' := fun h => hp (List.mem_cons_of_mem c h)
    rw [List.cons_append, splitSlash, if_neg hc, ih hp']

/-- `splitSlash` is a retraction of `joinSlash` on slash-free segments. -/
theorem splitSlash_joinSlash :
    ∀ parts : List (List Char), (∀ q ∈ parts, '/' ∉ q) → parts ≠ [] →
      splitSlash (joinSlash parts) = parts := by
  intro parts
  induction parts with
  | nil => intro _ hne; exact absurd rfl hne
  | cons p ps ih =>
    intro hfree _
    cases ps with
    | nil =>
      rw [joinSlash, splitSlash_single p (hfree p (List.mem_cons_self p []))]
    | cons q ps' =>
      rw [joinSlash, splitSlash_append p _ (hfree p (List.mem_cons_self p _)),
        ih (fun q' hq' => hfree q' (List.mem_cons_of_mem p hq')) (by simp)]

/-- Every character of a joined segment list is a slash or a segment
character. -/
theorem joinSlash_chars :
    ∀ (parts : List (List Char)) (c : Char), c ∈ joinSlash parts →
      c = '/' ∨ ∃ q ∈ parts, c ∈ q := by
  intro parts
  induction parts with
  | nil => intro c hc; simp [joinSlash] at hc
  | cons p ps ih =>
    intro c hc
    cases ps with
    | nil =>
      rw [joinSlash] at hc
      exact Or.inr ⟨p, List.mem_cons_self p [], hc⟩
    | cons q ps' =>
      rw [joinSlash] at hc
      rcases List.mem_append.mp hc with h | h
      · exact Or.inr ⟨p, List.mem_cons_self p _, h⟩
      · rcases List.mem_cons.mp h with h2 | h2
        · exact Or.inl h2
        · rcases ih c h2 with h3 | ⟨q', hq', hcq'⟩
          · exact Or.inl h3
          · exact Or.inr ⟨q', List.mem_cons_of_mem p hq', hcq'⟩

/-- The backslash substitution leaves no backslash behind. -/
theorem slashMap_no_backslash (cs : List Char) : '\\' ∉ slashMap cs := by
  intro hmem
  rcases List.mem_map.mp hmem with ⟨c, _, hc⟩
  by_cases h : c = '\\'
  · rw [if_pos h] at hc
    exact absurd hc (by decide)
  · rw [if_neg h] at hc
    exact h hc

/-- The backslash substitution fixes backslash-free inputs. -/
theorem slashMap_id_of_no_backslash (cs : List Char) (h : '\\' ∉ cs) :
    slashMap cs = cs := by
  unfold slashMap
  have hfix : ∀ c ∈ cs, (if c = '\\' then '/' else c) = c := by
    intro c hc
    rw [if_neg]
    intro he
    subst he
    exact h hc
  simp [List.map_congr_left hfix]

/-- Head of a nonempty joined segment list. -/
theorem joinSlash_head (p : List Char) (ps : List (List Char)) (hp : p ≠ []) :
    (joinSlash (p :: ps)).head? = p.head? := by
  cases ps with
  | nil => rw [joinSlash]
  | cons q ps' =>
    rw [joinSlash]
    cases p with
    | nil => exact absurd rfl hp
    | cons c p' => rfl

/-- Anatomy of an accepted input: the result is `"."`, or it is the
slash-join of the kept segments — each nonempty, not `"."`, not `".."`,
slash-free and backslash-free. -/
theorem normalize_ok_cases (s r : String) (h : normalize_relative_path s = .ok r) :
    r = "." ∨
      ∃ parts : List (List Char), parts ≠ [] ∧
        (∀ q ∈ parts, keepSegment q = true) ∧
        (∀ q ∈ parts, '/' ∉ q) ∧
        (∀ q ∈ parts, '\\' ∉ q) ∧
        (∀ q ∈ parts, q ≠ ['.', '.']) ∧
        r.toList = joinSlash parts := by
  unfold normalize_relative_path at h
  simp only [] at h
  split at h
  · cases h
  · split at h
    · cases h
    · split at h
      · cases h
      · rename_i hdd
        have hr := Except.ok.inj h
        rcases hemp : ((splitSlash (slashMap s.toList)).filter keepSegment).isEmpty with _ | _
        · right
          rw [hemp, if_neg (by simp)] at hr
          refine ⟨(splitSlash (slashMap s.toList)).filter keepSegment, ?_, ?_, ?_, ?_, ?_, ?_⟩
          · simpa [List.isEmpty_iff] using hemp
          · exact fun q hq => List.of_mem_filter hq
          · exact fun q hq => splitSlash_no_slash _ q (List.mem_of_mem_filter hq)
          · intro q hq hc
            exact slashMap_no_backslash s.toList
              (splitSlash_chars _ q (List.mem_of_mem_filter hq) _ hc)
          · intro q hq
            have hq2 := List.any_eq_false.mp (Bool.of_not_eq_true hdd) q hq
            simpa using hq2
          · rw [← hr]
            rfl
        · left
          rw [hemp, if_pos rfl] at hr
          exact hr.symm

/-- Accepted outputs never contain a backslash (the claim's "backslashes are
converted to forward slashes"). -/
theorem normalize_no_backslash (s r : String) (h : normalize_relative_path s = .ok r) :
    '\\' ∉ r.toList := by
  rcases normalize_ok_cases s r h with h1 | ⟨parts, _, _, _, hbs, _, hr⟩
  · subst h1
    decide
  · rw [hr]
    intro hmem
    rcases joinSlash_chars parts _ hmem with h2 | ⟨q, hq, hcq⟩
    · exact absurd h2 (by decide)
    · exact hbs q hq hcq

/-- Accepted inputs whose normal form has no drive-letter shape re-normalize
to themselves. -/
theorem normalize_idem (s r : String) (h : normalize_relative_path s = .ok r)
    (hdrive : driveLetterChars r.toList = false) :
    normalize_relative_path r = .ok r := by
  rcases normalize_ok_cases s r h with h1 | ⟨parts, hne, hkeep, hslash, hbs, hdd, hr⟩
  · subst h1
    rfl
  · have hmap : slashMap r.toList = r.toList := by
      apply slashMap_id_of_no_backslash
      rw [hr]
      intro hmem
      rcases joinSlash_chars parts _ hmem with h2 | ⟨q, hq, hcq⟩
      · exact absurd h2 (by decide)
      · exact hbs q hq hcq
    have hhead : r.toList.head? ≠ some '/' := by
      rcases parts with _ | ⟨p, ps⟩
      · exact absurd rfl hne
      · have hp : p ≠ [] := by
          have := hkeep p (List.mem_cons_self p ps)
          simp [keepSegment] at this
          exact fun he => by simp [he] at this
        rw [hr, joinSlash_head p ps hp]
        cases p with
        | nil => exact absurd rfl hp
        | cons c p' =>
          intro hc
          have : c = '/' := by simpa using hc
          exact hslash (c :: p') (List.mem_cons_self _ ps) (this ▸ List.mem_cons_self c p')
    have hsplit : splitSlash r.toList = parts := by
      rw [hr]
      exact splitSlash_joinSlash parts hslash hne
    have hfilter : parts.filter keepSegment = parts := List.filter_eq_self.mpr hkeep
    have hany : parts.any (fun p => p = ['.', '.']) = false := by
      apply List.any_eq_false.mpr
      intro q hq
      simpa using hdd q hq
    unfold normalize_relative_path
    simp only []
    rw [hmap]
    rw [if_neg (by rw [hdrive]; simp), if_neg hhead, hsplit, hfilter]
    rw [if_neg (by rw [hany]; simp)]
    have hemp : parts.isEmpty = false := by
      rcases parts with _ | _
      · exact absurd rfl hne
      · rfl
    rw [if_neg (by rw [hemp]; simp)]
    rw [← hr]
    cases r
    rfl

/-- Inputs containing a `".."` segment (with respect to both separators) are
rejected. -/
theorem normalize_rejects_dotdot (s : String)
    (h : (splitSlash (slashMap s.toList)).any (fun p => p = ['.', '.']) = true) :
    normalizeAccepts s = false := by
  have hany :
      ((splitSlash (slashMap s.toList)).filter keepSegment).any
        (fun p => p = ['.', '.']) = true := by
    rcases List.any_eq_true.mp h with ⟨q, hq, hq2⟩
    have hq3 : q = ['.', '.'] := by simpa using hq2
    subst hq3
    exact List.any_eq_true.mpr ⟨['.', '.'], List.mem_filter.mpr ⟨hq, by decide⟩, by simp⟩
  have herr : ∃ msg, normalize_relative_path s = .error msg := by
    unfold normalize_relative_path
    simp only []
    by_cases hd : driveLetterChars (slashMap s.toList) = true
    · exact ⟨_, by rw [if_pos hd]⟩
    · by_cases hh : (slashMap s.toList).head? = some '/'
      · exact ⟨_, by rw [if_neg hd, if_pos hh]⟩
      · exact ⟨_, by rw [if_neg hd, if_neg hh, if_pos hany]⟩
  rcases herr with ⟨msg, hmsg⟩
  unfold normalizeAccepts
  rw [hmsg]

/-- Inputs with a leading `/` are rejected. -/
theorem normalize_rejects_leading_slash (s : String) (h : s.toList.head? = some '/') :
    normalizeAccepts s = false := by
  have hhead : (slashMap s.toList).head? = some '/' := by
    rcases hs : s.toList with _ | ⟨c, rest⟩
    · rw [hs] at h; cases h
    · rw [hs] at h
      have hc : c = '/' := by simpa using h
      subst hc
      rfl
  have herr : ∃ msg, normalize_relative_path s = .error msg := by
    unfold normalize_relative_path
    simp only []
    by_cases hd : driveLetterChars (slashMap s.toList) = true
    · exact ⟨_, by rw [if_pos hd]⟩
    · exact ⟨_, by rw [if_neg hd, if_pos hhead]⟩
  rcases herr with ⟨msg, hmsg⟩
  unfold normalizeAccepts
  rw [hmsg]

/-- Inputs with a drive-letter prefix are rejected with the absolute-path
error. -/
theorem normalize_rejects_drive (s : String) (c : Char) (rest : List Char)
    (hs : s.toList = c :: ':' :: rest) (hc : c.isAlpha = true) :
    normalize_relative_path s = .error ("Absolute paths are not allowed: " ++ s) := by
  have hcbs : c ≠ '\\' := by
    intro he
    subst he
    exact absurd hc (by decide)
  have hmap : slashMap s.toList = c :: ':' :: slashMap rest := by
    rw [hs]
    simp [slashMap, if_neg hcbs]
  unfold normalize_relative_path
  simp only []
  rw [hmap, if_pos (by simp [driveLetterChars, hc])]

/-- A leading `"./"` is stripped: prefixing it changes no accepted result
(provided the bare input is not itself rejected as absolute or
drive-prefixed before its segments are examined). -/
theorem normalize_dotslash (s r : String)
    (hd : driveLetterChars (slashMap s.toList) = false)
    (hh : (slashMap s.toList).head? ≠ some '/') :
    normalize_relative_path ("./" ++ s) = .ok r ↔ normalize_relative_path s = .ok r := by
  have htl : ("./" ++ s).toList = '.' :: '/' :: s.toList := by
    simp [String.toList]
  have hsm : slashMap (("./" ++ s).toList) = '.' :: '/' :: slashMap s.toList := by
    rw [htl]
    rfl
  have hsplit : splitSlash ('.' :: '/' :: slashMap s.toList) =
      ['.'] :: splitSlash (slashMap s.toList) := by
    rw [splitSlash, if_neg (by decide), splitSlash, if_pos rfl]
  have hlhs : normalize_relative_path ("./" ++ s) =
      (if ((splitSlash (slashMap s.toList)).filter keepSegment).any
          (fun p => p = ['.', '.']) = true then
        Except.error ("Path escapes root: " ++ ("./" ++ s))
      else
        Except.ok
          (if ((splitSlash (slashMap s.toList)).filter keepSegment).isEmpty = true then "."
           else String.mk (joinSlash ((splitSlash (slashMap s.toList)).filter keepSegment)))) := by
    unfold normalize_relative_path
    simp only []
    rw [hsm, if_neg (by simp [driveLetterChars]), if_neg (by simp), hsplit,
      List.filter_cons_of_neg (by decide)]
  have hrhs : normalize_relative_path s =
      (if ((splitSlash (slashMap s.toList)).filter keepSegment).any
          (fun p => p = ['.', '.']) = true then
        Except.error ("Path escapes root: " ++ s)
      else
        Except.ok
          (if ((splitSlash (slashMap s.toList)).filter keepSegment).isEmpty = true then "."
           else String.mk (joinSlash ((splitSlash (slashMap s.toList)).filter keepSegment)))) := by
    unfold normalize_relative_path
    simp only []
    rw [if_neg (by rw [hd]; simp), if_neg hh]
  rw [hlhs, hrhs]
  by_cases hdd : ((splitSlash (slashMap s.toList)).filter keepSegment).any
      (fun p => p = ['.', '.']) = true
  · rw [if_pos hdd, if_pos hdd]
    constructor <;> (intro hcon; cases hcon)
  · rw [if_neg hdd, if_neg hdd]

/-- **C8, counterexample.**  The claim says `normalize_relative_path` is
idempotent on every input it accepts.  But `"./C:foo"` is accepted (the `"."`
segment is stripped, leaving `"C:foo"`), while re-normalizing the accepted
result `"C:foo"` raises, because the drive-letter test now matches at the
start of the string. -/
theorem c8_counterexample :
    normalize_relative_path "./C:foo" = .ok "C:foo" ∧
      normalize_relative_path "C:foo" = .error "Absolute paths are not allowed: C:foo" :=
  ⟨rfl, rfl⟩

/-- **C8, amended.**  `normalize_relative_path` is idempotent on every
accepted input whose normal form does not itself begin with a drive-letter
pattern (the sole exception, forced by the counterexample: inputs like
`"./C:foo"` normalize to `"C:foo"`, which the function then rejects); it
rejects every input containing a `".."` segment, a leading `"/"`, or a
drive-letter prefix; backslashes are converted to forward slashes (no
accepted result contains one); a leading `"./"` is stripped; and an input
that normalizes to nothing yields `"."`. -/
theorem c8_normalize_properties :
    (∀ s r : String, normalize_relative_path s = .ok r →
        driveLetterChars r.toList = false → normalize_relative_path r = .ok r) ∧
    (∀ s : String,
        (splitSlash (slashMap s.toList)).any (fun p => p = ['.', '.']) = true →
        normalizeAccepts s = false) ∧
    (∀ s : String, s.toList.head? = some '/' → normalizeAccepts s = false) ∧
    (∀ (s : String) (c : Char) (rest : List Char),
        s.toList = c :: ':' :: rest → c.isAlpha = true →
        normalize_relative_path s = .error ("Absolute paths are not allowed: " ++ s)) ∧
    (∀ s r : String, normalize_relative_path s = .ok r → '\\' ∉ r.toList) ∧
    (∀ s r : String, driveLetterChars (slashMap s.toList) = false →
        (slashMap s.toList).head? ≠ some '/' →
        (normalize_relative_path ("./" ++ s) = .ok r ↔ normalize_relative_path s = .ok r)) ∧
    normalize_relative_path "" = .ok "." :=
  ⟨normalize_idem, normalize_rejects_dotdot, normalize_rejects_leading_slash,
    normalize_rejects_drive, normalize_no_backslash, normalize_dotslash, rfl⟩

/-- **C8, witness**: idempotence applied at the concrete accepted input
`"a\\b/.//c"`, whose normal form is `"a/b/c"`. -/
theorem c8_normalize_properties_witness :
    normalize_relative_path "a\\b/.//c" = .ok "a/b/c" ∧
      normalize_relative_path "a/b/c" = .ok "a/b/c" :=
  ⟨rfl, c8_normalize_properties.1 "a\\b/.//c" "a/b/c" rfl rfl⟩

end SimpleSync
